import Mathlib

/-!
Verification of the request-routing core of `spa-server` (`main.go`).

Go strings are modelled as `List Char` (`Str`); the Go standard-library
string helpers used by the program (`strings.Split`, `strings.SplitN`,
`strings.TrimSpace`, `strings.HasPrefix`, `strings.HasSuffix`,
`strings.Contains`) are embedded as executable functions on `Str`.
The request handler installed by `http.HandleFunc` in `main` is embedded
as the pure function `handleRequest`, which maps the per-request inputs
(forwarded-for header value, peer address, URL path, and whether a file
exists at the joined location) to a `RoutingDecision`.  Filesystem state
is abstracted by the Boolean `fileExists` (the result of the `os.Stat`
call on `filepath.Join(distDir, r.URL.Path)`).
-/

namespace SpaServer

/-- Go strings, as lists of characters. -/
abbrev Str := List Char

/-- Go `strings.TrimSpace`: drop whitespace from both ends. -/
def trimSpace (s : Str) : Str :=
  ((s.dropWhile Char.isWhitespace).reverse.dropWhile Char.isWhitespace).reverse

/-- Go `strings.Split(s, c)` for a single-character separator: splits around
every occurrence of `c`; always returns at least one element, and returns
`[""]` on the empty string. -/
def splitChar (c : Char) : Str → List Str
  | [] => [[]]
  | x :: xs =>
    if x = c then [] :: splitChar c xs
    else
      match splitChar c xs with
      | [] => [[x]]
      | y :: ys => (x :: y) :: ys

/-- Go `strings.SplitN(s, c, 2)` for a single-character separator: if `c`
occurs in `s`, the part before the first occurrence and the part after it;
otherwise the one-element list `[s]`. -/
def splitN2 (c : Char) (s : Str) : List Str :=
  if s.contains c then
    [s.takeWhile (fun x => x != c), (s.dropWhile (fun x => x != c)).tail]
  else [s]

/-- `getClientIP` (main.go lines 202-212): prefer the first comma-separated
entry of the `X-Forwarded-For` header, trimmed; otherwise everything of
`r.RemoteAddr` before the first colon. `xff = []` models an absent header
(Go `Header.Get` returns `""` then). -/
def getClientIP (xff remoteAddr : Str) : Str :=
  if xff ≠ [] then trimSpace ((splitChar ',' xff).headD [])
  else (splitChar ':' remoteAddr).headD []

/-- The allow-list check inlined in the handler (main.go lines 291-308):
if the list is empty or its first entry is the empty string the check is
skipped (`len(allowedIPs) > 0 && allowedIPs[0] != ""`); otherwise the
client is allowed iff some entry equals the client IP exactly or the
client IP starts with the entry trimmed of whitespace. -/
def isAllowed (allowedIPs : List Str) (clientIP : Str) : Bool :=
  if allowedIPs.headD [] = [] then true
  else allowedIPs.any fun aIP => aIP = clientIP || (trimSpace aIP).isPrefixOf clientIP

/-- One route pattern against one path (main.go lines 312-332): a pattern
containing `*` is split by `SplitN(pattern, "*", 2)` into the part before
the first `*` and the part after it, and matches iff the path starts with
the former and ends with the latter; a pattern without `*` matches iff the
path starts with it. -/
def patternMatches (pat path : Str) : Bool :=
  if pat.contains '*' then
    match splitN2 '*' pat with
    | [pre, suf] => pre.isPrefixOf path && suf.isSuffixOf path
    | _ => false
  else pat.isPrefixOf path

/-- The `shouldProxy` loop (main.go lines 311-332): OR across all patterns. -/
def shouldProxy (paths : List Str) (path : Str) : Bool :=
  paths.any fun pat => patternMatches pat path

/-- `ALLOW_REMOTE_IPS` parsing (main.go line 236): split on commas. -/
def parseAllowedIPs (env : Str) : List Str := splitChar ',' env

/-- `PROXY_PATHS` parsing (main.go lines 246-258): empty means the single
default pattern `/query`; otherwise split on commas and trim each entry. -/
def parseProxyPaths (env : Str) : List Str :=
  if env = [] then [("/query").toList]
  else (splitChar ',' env).map trimSpace

/-- The decision the handler reaches for one request.  `staticServe b`
serves an existing file through the file server, with `b` recording whether
the `Cache-Control: no-cache, no-store, must-revalidate` header was set
first; `fallbackServe` serves the SPA entry document `index.html` with that
header set. -/
inductive RoutingDecision where
  | forbidden
  | proxied
  | fallbackServe
  | staticServe (noCache : Bool)
deriving DecidableEq, Repr

/-- Static resolution (main.go lines 341-354): if no file exists at the
joined location, serve `index.html` with caching suppressed; otherwise
serve the file, suppressing caching only for `/` and `/index.html`. -/
def staticResolve (path : Str) (fileExists : Bool) : RoutingDecision :=
  if fileExists = false then .fallbackServe
  else .staticServe (path = ("/").toList || path = ("/index.html").toList)

/-- The process-wide immutable configuration the handler closes over. -/
structure Config where
  allowedIPs : List Str
  paths : List Str
  proxyConfigured : Bool

/-- The request handler (main.go lines 286-355): access check first, then
the proxy check (`shouldProxy && proxy != nil`), then static resolution. -/
def handleRequest (cfg : Config) (xff remoteAddr path : Str)
    (fileExists : Bool) : RoutingDecision :=
  if isAllowed cfg.allowedIPs (getClientIP xff remoteAddr) = false then .forbidden
  else if shouldProxy cfg.paths path && cfg.proxyConfigured then .proxied
  else staticResolve path fileExists

/-- The HTTP status the handler itself commits to (`none` for proxied
requests, whose status comes from the upstream). -/
def statusCode : RoutingDecision → Option Nat
  | .forbidden => some 403
  | .proxied => none
  | .fallbackServe => some 200
  | .staticServe _ => some 200

/-- Whether the decision set `Cache-Control: no-cache, no-store,
must-revalidate` on the response. -/
def cacheSuppressed : RoutingDecision → Bool
  | .fallbackServe => true
  | .staticServe b => b
  | _ => false

/-- Startup outcome of `main` before entering the serve loop. -/
inductive StartupOutcome where
  | fatalExit
  | serve (proxyConfigured : Bool)
deriving DecidableEq, Repr

/-- Startup control flow of `main` (lines 229-283): empty `DIST_DIR` or an
absent directory calls `os.Exit(1)`; an empty `PROXY_URL` serves without a
proxy; a `PROXY_URL` that fails `url.Parse` (modelled by the oracle
`parseOk`) is logged and the process serves with `proxy` left `nil`. -/
def startup (distDir proxyURL : Str) (distDirExists parseOk : Bool) :
    StartupOutcome :=
  if distDir = [] then .fatalExit
  else if distDirExists = false then .fatalExit
  else if proxyURL = [] then .serve false
  else if parseOk then .serve true
  else .serve false

/-- Modelled from the spec: the transport-level peer address with its port
suffix stripped, i.e. everything before the LAST colon (spec §4.1); used
only to compare the spec's wording with `getClientIP`. -/
def stripPortSuffix (addr : Str) : Str :=
  if addr.contains ':' then
    ((addr.reverse.dropWhile (fun x => x != ':')).drop 1).reverse
  else addr

/-! ### Helper lemmas -/

theorem splitChar_ne_nil (c : Char) (s : Str) : splitChar c s ≠ [] := by
  induction s with
  | nil => simp [splitChar]
  | cons x xs ih =>
    unfold splitChar
    by_cases h : x = c
    · simp [h]
    · simp only [h, if_false]
      cases hs : splitChar c xs <;> simp

theorem splitChar_headD (c : Char) (s : Str) :
    (splitChar c s).headD [] = s.takeWhile (fun x => x != c) := by
  induction s with
  | nil => rfl
  | cons x xs ih =>
    unfold splitChar
    by_cases h : x = c
    · simp [h, List.takeWhile_cons]
    · cases hs : splitChar c xs with
      | nil => exact absurd hs (splitChar_ne_nil c xs)
      | cons y ys =>
        rw [hs] at ih
        simp [h, List.takeWhile_cons, ← ih]

theorem takeWhile_before_sep (c : Char) (pre suf : Str) (h : c ∉ pre) :
    (pre ++ c :: suf).takeWhile (fun x => x != c) = pre := by
  induction pre with
  | nil => simp [List.takeWhile_cons]
  | cons x xs ih =>
    have hx : x ≠ c := fun hh => h (hh ▸ List.mem_cons_self x xs)
    simp only [List.cons_append, List.takeWhile_cons]
    simp [hx, ih fun hm => h (List.mem_cons_of_mem _ hm)]

theorem dropWhile_from_sep (c : Char) (pre suf : Str) (h : c ∉ pre) :
    (pre ++ c :: suf).dropWhile (fun x => x != c) = c :: suf := by
  induction pre with
  | nil => simp [List.dropWhile_cons]
  | cons x xs ih =>
    have hx : x ≠ c := fun hh => h (hh ▸ List.mem_cons_self x xs)
    simp only [List.cons_append, List.dropWhile_cons]
    simp [hx, ih fun hm => h (List.mem_cons_of_mem _ hm)]

theorem contains_eq_false (c : Char) (s : Str) (h : c ∉ s) :
    s.contains c = false := by
  rw [Bool.eq_false_iff]
  intro hc
  exact h (List.elem_iff.mp hc)

theorem handleRequest_of_allowed (cfg : Config) (xff ra path : Str)
    (fe : Bool) (h : isAllowed cfg.allowedIPs (getClientIP xff ra) = true) :
    handleRequest cfg xff ra path fe =
      if shouldProxy cfg.paths path && cfg.proxyConfigured then .proxied
      else staticResolve path fe := by
  unfold handleRequest
  rw [h]
  simp

theorem staticResolve_ne_forbidden (path : Str) (fe : Bool) :
    staticResolve path fe ≠ .forbidden := by
  unfold staticResolve
  split <;> simp

theorem handleRequest_ne_forbidden_of_allowed (cfg : Config)
    (xff ra path : Str) (fe : Bool)
    (h : isAllowed cfg.allowedIPs (getClientIP xff ra) = true) :
    handleRequest cfg xff ra path fe ≠ .forbidden := by
  rw [handleRequest_of_allowed cfg xff ra path fe h]
  split
  · simp
  · exact staticResolve_ne_forbidden path fe

/-! ### Claim theorems -/

/-- Claim C1 counterexample: with route patterns `["/query"]`, no upstream
configured, and open access, a request for `/query` matches the proxy
pattern yet is answered by static resolution, not by a 404: with no file at
the joined location the SPA fallback (status 200) is served, and with a
file present the file server serves it — the filesystem is consulted
either way. -/
theorem matchedNoUpstreamCex :
    shouldProxy [("/query").toList] (("/query").toList) = true ∧
    handleRequest ⟨[[]], [("/query").toList], false⟩ [] (("1.2.3.4:5").toList)
      (("/query").toList) false = .fallbackServe ∧
    handleRequest ⟨[[]], [("/query").toList], false⟩ [] (("1.2.3.4:5").toList)
      (("/query").toList) true = .staticServe false ∧
    statusCode .fallbackServe = some 200 := by decide

/-- Claim C1 (amended): for an authorized client, a request whose path
matches a configured route pattern while no upstream is configured falls
through to static resolution: the response is exactly what the static
resolver produces (file serve or SPA fallback), never a 404 short-circuit. -/
theorem matchedNoUpstreamFallsThrough (cfg : Config) (xff ra path : Str)
    (fe : Bool) (hm : shouldProxy cfg.paths path = true)
    (hp : cfg.proxyConfigured = false)
    (ha : isAllowed cfg.allowedIPs (getClientIP xff ra) = true) :
    handleRequest cfg xff ra path fe = staticResolve path fe := by
  rw [handleRequest_of_allowed cfg xff ra path fe ha, hm, hp]
  simp

/-- Claim C1 witness. -/
theorem matchedNoUpstreamFallsThroughW :
    handleRequest ⟨[[]], [("/query").toList], false⟩ [] (("1.2.3.4:5").toList)
      (("/query").toList) false = staticResolve (("/query").toList) false :=
  matchedNoUpstreamFallsThrough ⟨[[]], [("/query").toList], false⟩ []
    (("1.2.3.4:5").toList) (("/query").toList) false (by decide) rfl (by decide)

/-- Claim C5 counterexample: with a valid root directory and a `PROXY_URL`
that fails `url.Parse`, `main` logs the error and proceeds to serve with no
proxy configured — the outcome is not a fatal exit, so the process does
handle requests. -/
theorem malformedUpstreamCex :
    startup (("dist").toList) (("http://[::1").toList) true false =
      .serve false ∧
    StartupOutcome.serve false ≠ .fatalExit := by decide

/-- Claim C5 (amended): a malformed upstream target URL is not fatal at
startup: provided the root directory is configured and exists, the process
proceeds to serve requests, with no upstream configured. -/
theorem malformedUpstreamNonFatal (distDir proxyURL : Str)
    (hd : distDir ≠ []) (hu : proxyURL ≠ []) :
    startup distDir proxyURL true false = .serve false := by
  unfold startup
  simp [hd, hu]

/-- Claim C5 witness. -/
theorem malformedUpstreamNonFatalW :
    startup (("dist").toList) (("http://[::1").toList) true false =
      .serve false :=
  malformedUpstreamNonFatal (("dist").toList) (("http://[::1").toList)
    (by decide) (by decide)

/-- Claim C8: the empty route-pattern configuration parses to exactly the
single pattern `/query`, so the proxy-match decision agrees with the
one-element configuration `["/query"]` on every path. -/
theorem emptyPathsDefaultQuery :
    parseProxyPaths [] = [("/query").toList] ∧
    ∀ path : Str, shouldProxy (parseProxyPaths []) path =
      shouldProxy [("/query").toList] path :=
  ⟨rfl, fun _ => rfl⟩

/-- Claim C10: if the first entry of the allow-list is the empty string the
access check is skipped entirely: every client IP is allowed and the
handler never returns 403, regardless of later (possibly non-empty)
entries — only the first entry decides whether enforcement applies. -/
theorem firstEntryEmptySkipsCheck (rest : List Str) (ip : Str) :
    isAllowed ([] :: rest) ip = true ∧
    ∀ (paths : List Str) (pc : Bool) (xff ra path : Str) (fe : Bool),
      handleRequest ⟨[] :: rest, paths, pc⟩ xff ra path fe ≠ .forbidden := by
  refine ⟨by simp [isAllowed], ?_⟩
  intro paths pc xff ra path fe
  exact handleRequest_ne_forbidden_of_allowed ⟨[] :: rest, paths, pc⟩
    xff ra path fe (by simp [isAllowed])

/-- Claim C2: for a non-empty allow-list whose first entry is non-empty,
a client IP is allowed iff it equals some entry exactly or it starts with
some entry trimmed of surrounding whitespace; every denied client receives
the Forbidden decision (status 403) from the handler. -/
theorem allowListSpec (l : List Str) (h : l.headD [] ≠ []) (ip : Str) :
    (isAllowed l ip = true ↔
      ∃ e ∈ l, e = ip ∨ (trimSpace e).isPrefixOf ip = true) ∧
    ∀ (paths : List Str) (pc : Bool) (path : Str) (fe : Bool) (xff ra : Str),
      getClientIP xff ra = ip → isAllowed l ip = false →
      handleRequest ⟨l, paths, pc⟩ xff ra path fe = .forbidden := by
  constructor
  · unfold isAllowed
    rw [if_neg h]
    simp [List.any_eq_true]
  · intro paths pc path fe xff ra hip hden
    unfold handleRequest
    simp [hip, hden]

/-- Claim C2 witness. -/
theorem allowListSpecW :
    (isAllowed [("10.0.0.").toList] (("10.0.0.5").toList) = true ↔
      ∃ e ∈ [("10.0.0.").toList], e = ("10.0.0.5").toList ∨
        (trimSpace e).isPrefixOf (("10.0.0.5").toList) = true) ∧
    ∀ (paths : List Str) (pc : Bool) (path : Str) (fe : Bool) (xff ra : Str),
      getClientIP xff ra = ("10.0.0.5").toList →
      isAllowed [("10.0.0.").toList] (("10.0.0.5").toList) = false →
      handleRequest ⟨[("10.0.0.").toList], paths, pc⟩ xff ra path fe =
        .forbidden :=
  allowListSpec [("10.0.0.").toList] (by decide) (("10.0.0.5").toList)

/-- Claim C6 counterexample: the allow-list `["1.2.3.4", ""]` — exactly
what `ALLOW_REMOTE_IPS=1.2.3.4,` parses to — enforces restrictions (its
first entry is non-empty), yet the empty client IP matches the empty
second entry exactly and is allowed, contradicting the claim that an empty
client IP never matches any configured entry. -/
theorem emptyClientIPCex :
    parseAllowedIPs (("1.2.3.4,").toList) = [("1.2.3.4").toList, []] ∧
    ([("1.2.3.4").toList, ([] : Str)]).headD [] ≠ [] ∧
    isAllowed [("1.2.3.4").toList, []] [] = true := by decide

/-- Claim C6 (amended): when the allow-list enforces restrictions and no
entry is blank (every entry trims to a non-empty string), the empty client
IP matches no entry and is denied with the Forbidden decision (403). -/
theorem emptyClientIPDenied (l : List Str) (hne : l ≠ [])
    (hb : ∀ e ∈ l, trimSpace e ≠ []) :
    isAllowed l [] = false ∧
    ∀ (paths : List Str) (pc : Bool) (path : Str) (fe : Bool) (xff ra : Str),
      getClientIP xff ra = [] →
      handleRequest ⟨l, paths, pc⟩ xff ra path fe = .forbidden := by
  have hhead : l.headD [] ≠ [] := by
    cases l with
    | nil => exact absurd rfl hne
    | cons a t =>
      intro ha
      exact hb a (List.mem_cons_self a t) (by rw [List.headD_cons] at ha; rw [ha]; rfl)
  have hden : isAllowed l [] = false := by
    unfold isAllowed
    rw [if_neg hhead, Bool.eq_false_iff]
    intro hany
    rcases List.any_eq_true.mp hany with ⟨e, he, hmatch⟩
    rcases Bool.or_eq_true_iff.mp hmatch with h1 | h2
    · exact hb e he (by rw [of_decide_eq_true h1]; rfl)
    · exact hb e he (List.prefix_nil.mp (List.isPrefixOf_iff_prefix.mp h2))
  refine ⟨hden, ?_⟩
  intro paths pc path fe xff ra hip
  unfold handleRequest
  simp [hip, hden]

/-- Claim C6 (amended) witness. -/
theorem emptyClientIPDeniedW :
    isAllowed [("1.2.3.4").toList] [] = false ∧
    ∀ (paths : List Str) (pc : Bool) (path : Str) (fe : Bool) (xff ra : Str),
      getClientIP xff ra = [] →
      handleRequest ⟨[("1.2.3.4").toList], paths, pc⟩ xff ra path fe =
        .forbidden :=
  emptyClientIPDenied [("1.2.3.4").toList] (by decide) (by decide)

/-- Claim C7: an empty allow-list, or one whose only entry is empty or
blank (trims to the empty string), allows every client IP unconditionally,
and the handler never returns 403 for such configurations. -/
theorem openAccessAllowsAll (l : List Str)
    (h : l = [] ∨ ∃ e, l = [e] ∧ trimSpace e = []) (ip : Str) :
    isAllowed l ip = true ∧
    ∀ (paths : List Str) (pc : Bool) (path : Str) (fe : Bool) (xff ra : Str),
      getClientIP xff ra = ip →
      handleRequest ⟨l, paths, pc⟩ xff ra path fe ≠ .forbidden := by
  have hall : isAllowed l ip = true := by
    rcases h with rfl | ⟨e, rfl, he⟩
    · rfl
    · unfold isAllowed
      by_cases h0 : e = []
      · rw [if_pos (by rw [h0]; rfl)]
      · rw [if_neg (by rwa [List.headD_cons])]
        apply List.any_eq_true.mpr
        refine ⟨e, List.mem_cons_self e [], ?_⟩
        apply Bool.or_eq_true_iff.mpr
        right
        rw [he]
        exact List.isPrefixOf_iff_prefix.mpr List.nil_prefix
  refine ⟨hall, ?_⟩
  intro paths pc path fe xff ra hip
  apply handleRequest_ne_forbidden_of_allowed
  rw [hip]
  exact hall

/-- Claim C7 witness. -/
theorem openAccessAllowsAllW :
    isAllowed [(" ").toList] (("9.9.9.9").toList) = true ∧
    ∀ (paths : List Str) (pc : Bool) (path : Str) (fe : Bool) (xff ra : Str),
      getClientIP xff ra = ("9.9.9.9").toList →
      handleRequest ⟨[(" ").toList], paths, pc⟩ xff ra path fe ≠ .forbidden :=
  openAccessAllowsAll [(" ").toList]
    (Or.inr ⟨(" ").toList, rfl, by decide⟩) (("9.9.9.9").toList)

/-- Claim C4: for every request that reaches static resolution (authorized,
and not proxied), the handler's outcome is exactly the static resolver's:
a missing file yields the SPA fallback, which carries the
`Cache-Control: no-cache, no-store, must-revalidate` header; an existing
file at `/` or `/index.html` also carries it; any other existing file is
served with no cache-override header. -/
theorem staticCacheSpec (cfg : Config) (xff ra path : Str) (fe : Bool)
    (ha : isAllowed cfg.allowedIPs (getClientIP xff ra) = true)
    (hp : (shouldProxy cfg.paths path && cfg.proxyConfigured) = false) :
    handleRequest cfg xff ra path fe = staticResolve path fe ∧
    (fe = false → handleRequest cfg xff ra path fe = .fallbackServe) ∧
    cacheSuppressed (staticResolve path fe) =
      (!fe || path = ("/").toList || path = ("/index.html").toList) := by
  have hmain : handleRequest cfg xff ra path fe = staticResolve path fe := by
    rw [handleRequest_of_allowed cfg xff ra path fe ha, hp]
    simp
  refine ⟨hmain, ?_, ?_⟩
  · intro hfe
    rw [hmain, hfe]
    rfl
  · cases fe <;> simp [staticResolve, cacheSuppressed]

/-- Claim C4 witness. -/
theorem staticCacheSpecW :
    (handleRequest ⟨[[]], [("/query").toList], false⟩ [] (("1.2.3.4:5").toList)
       (("/app.js").toList) true = staticResolve (("/app.js").toList) true) ∧
    (true = false → handleRequest ⟨[[]], [("/query").toList], false⟩ []
       (("1.2.3.4:5").toList) (("/app.js").toList) true = .fallbackServe) ∧
    cacheSuppressed (staticResolve (("/app.js").toList) true) =
      (!true || ("/app.js").toList = ("/").toList ||
        ("/app.js").toList = ("/index.html").toList) :=
  staticCacheSpec ⟨[[]], [("/query").toList], false⟩ [] (("1.2.3.4:5").toList)
    (("/app.js").toList) true (by decide) (by decide)

/-- Claim C3: a star-free pattern matches iff the path starts with it
byte-for-byte; a single-star pattern `pre*suf` (with `pre` and `suf`
star-free) matches iff the path starts with `pre` and ends with `suf`; the
overall decision is the disjunction over all configured patterns; and the
spec's concrete examples hold, including `"/api"` matching `"/apiary"`. -/
theorem pathMatcherSpec (patterns : List Str) (path : Str) :
    (shouldProxy patterns path = true ↔
      ∃ p ∈ patterns, patternMatches p path = true) ∧
    (∀ p : Str, ('*') ∉ p → patternMatches p path = p.isPrefixOf path) ∧
    (∀ pre suf : Str, ('*') ∉ pre → ('*') ∉ suf →
      patternMatches (pre ++ '*' :: suf) path =
        (pre.isPrefixOf path && suf.isSuffixOf path)) ∧
    (patternMatches (("/api").toList) (("/apiary").toList) = true ∧
     patternMatches (("/videos/*.mp4").toList) (("/videos/a.mp4").toList) = true ∧
     patternMatches (("/videos/*.mp4").toList) (("/videos/a.mov").toList) = false) := by
  refine ⟨List.any_eq_true, ?_, ?_, by decide, by decide, by decide⟩
  · intro p hp
    unfold patternMatches
    rw [contains_eq_false '*' p hp]
    simp
  · intro pre suf hpre _
    have hc : (pre ++ '*' :: suf).contains '*' = true :=
      List.elem_iff.mpr (by simp)
    unfold patternMatches splitN2
    rw [hc, takeWhile_before_sep '*' pre suf hpre,
      dropWhile_from_sep '*' pre suf hpre]
    simp

/-- Claim C3 witness. -/
theorem pathMatcherSpecW :
    patternMatches (("/api").toList) (("/apiary").toList) =
      (("/api").toList).isPrefixOf (("/apiary").toList) :=
  (pathMatcherSpec [] (("/apiary").toList)).2.1 (("/api").toList) (by decide)

/-- Claim C9 counterexample: with no forwarded-for header and the IPv6 peer
address `[::1]:8080`, `getClientIP` returns everything before the FIRST
colon — the string `"["` — and not the address with its port suffix
stripped, which is `"[::1]"`. -/
theorem clientIPCex :
    getClientIP [] (("[::1]:8080").toList) = ("[").toList ∧
    stripPortSuffix (("[::1]:8080").toList) = ("[::1]").toList ∧
    ("[").toList ≠ (("[::1]").toList : Str) := by decide

/-- Claim C9 (amended): with a non-empty forwarded-for header the result is
the first comma-separated entry trimmed of surrounding whitespace (the
maximal comma-free leading segment, trimmed); otherwise it is the part of
the transport-level peer address before the FIRST colon — which coincides
with stripping the port suffix exactly when the host part contains no
colon. -/
theorem clientIPSpec (xff ra : Str) :
    (xff ≠ [] → getClientIP xff ra =
      trimSpace (xff.takeWhile (fun x => x != ','))) ∧
    (xff = [] → getClientIP xff ra = ra.takeWhile (fun x => x != ':')) ∧
    (∀ host portStr : Str, (':') ∉ host →
      getClientIP [] (host ++ ':' :: portStr) = host) := by
  refine ⟨?_, ?_, ?_⟩
  · intro hx
    unfold getClientIP
    rw [if_pos hx, splitChar_headD]
  · intro hx
    unfold getClientIP
    rw [if_neg (by simp [hx]), splitChar_headD]
  · intro host portStr hh
    unfold getClientIP
    rw [if_neg (by simp), splitChar_headD,
      takeWhile_before_sep ':' host portStr hh]

/-- Claim C9 witness. -/
theorem clientIPSpecW :
    getClientIP [] (("10.0.0.5").toList ++ ':' :: ("4432").toList) =
      ("10.0.0.5").toList :=
  (clientIPSpec [] (("10.0.0.5").toList ++ ':' :: ("4432").toList)).2.2
    (("10.0.0.5").toList) (("4432").toList) (by decide)

/-- Claim C8 witness. -/
theorem emptyPathsDefaultQueryW :
    shouldProxy (parseProxyPaths []) (("/query/data").toList) =
      shouldProxy [("/query").toList] (("/query/data").toList) :=
  emptyPathsDefaultQuery.2 (("/query/data").toList)

/-- Claim C10 witness. -/
theorem firstEntryEmptySkipsCheckW :
    isAllowed ([] :: [("9.9.9.9").toList]) (("8.8.8.8").toList) = true :=
  (firstEntryEmptySkipsCheck [("9.9.9.9").toList] (("8.8.8.8").toList)).1

end SpaServer
